import Mathlib

/-!
Shallow embedding of `artiq/compiler/targets.py` (the `RunTool` context
manager, the `_dump` diagnostic helper, and `Target.compile`,
`Target.symbolize`, `Target.demangle`), together with theorems settling the
specification claims about this code.

Byte streams (file contents, subprocess stdout/stderr) are modelled as the
strings they decode to; external subprocesses are modelled as an oracle
`List String → ProcResult` mapping a command line to its exit status and
captured output.
-/

namespace ArtiqTargets

/-! ## Python string primitives used by targets.py -/

/-- The opening curly brace character (written numerically). -/
def lbrace : Char := Char.ofNat 123

/-- The closing curly brace character (written numerically). -/
def rbrace : Char := Char.ofNat 125

/-- Lowercase hex digit characters, as produced by Python `hex()`. -/
def hexDigitChar (d : Nat) : Char :=
  if d < 10 then Char.ofNat (48 + d) else Char.ofNat (87 + d)

/-- Big-endian hex digit list of `n`; fuel-structured so the kernel can
evaluate it (the fuel argument strictly decreases, the value argument is
divided by 16 at each step; `fuel ≥ n` is always sufficient). -/
def hexRepAux : Nat → Nat → List Char
  | _, 0 => []
  | 0, _ + 1 => []
  | fuel + 1, n + 1 => hexRepAux fuel ((n + 1) / 16) ++ [hexDigitChar ((n + 1) % 16)]

def hexRep (n : Nat) : List Char := hexRepAux n n

def hexStr (n : Nat) : List Char := if n = 0 then ['0'] else hexRep n

/-- Python `hex(i)`: "0x" followed by lowercase hex digits, with a leading
minus sign for negative arguments. -/
def pyHex (i : Int) : String :=
  if i < 0 then "-0x" ++ String.mk (hexStr i.natAbs) else "0x" ++ String.mk (hexStr i.toNat)

/-- Value of one hex digit character (0-9, a-f, A-F), as accepted by
Python `int(_, 16)`. -/
def hexVal (c : Char) : Option Nat :=
  if 48 ≤ c.toNat ∧ c.toNat ≤ 57 then some (c.toNat - 48)
  else if 97 ≤ c.toNat ∧ c.toNat ≤ 102 then some (c.toNat - 87)
  else if 65 ≤ c.toNat ∧ c.toNat ≤ 70 then some (c.toNat - 55)
  else none

def hexStep (acc : Option Nat) (c : Char) : Option Nat :=
  acc.bind fun a => (hexVal c).map fun d => a * 16 + d

def parseHexCore (cs : List Char) : Option Nat := cs.foldl hexStep (some 0)

/-- Python `int(s, 16)` on the digit-only strings this code produces and
consumes: a nonempty run of hex digits; anything else is a `ValueError`
(`none`). -/
def parseHex (s : String) : Option Nat :=
  if s.data = [] then none else parseHexCore s.data

/-- Value of one decimal digit character. -/
def decVal (c : Char) : Option Nat :=
  if 48 ≤ c.toNat ∧ c.toNat ≤ 57 then some (c.toNat - 48) else none

def decStep (acc : Option Nat) (c : Char) : Option Nat :=
  acc.bind fun a => (decVal c).map fun d => a * 10 + d

def parseDecCore (cs : List Char) : Option Nat := cs.foldl decStep (some 0)

/-- Python `int(s)` on the line-number strings addr2line produces: an
optional minus sign followed by a nonempty run of decimal digits; anything
else is a `ValueError` (`none`). -/
def pyInt (s : String) : Option Int :=
  match s.data with
  | [] => none
  | c :: rest =>
    if c = '-' then
      if rest = [] then none else (parseDecCore rest).map fun n => -(n : Int)
    else (parseDecCore (c :: rest)).map fun n => (n : Int)

/-- Python `s[:2] == "0x"`. -/
def startsWith0x (s : String) : Bool :=
  match s.data with
  | c1 :: c2 :: _ => c1 == '0' && c2 == 'x'
  | _ => false

/-- Python `s[2:]`. -/
def pyDropTwo (s : String) : String := String.mk (s.data.drop 2)

/-- Python `s.rsplit(":", 1)` when it splits into exactly two pieces;
`none` models the single-element result whose 2-tuple unpacking raises
`ValueError`. -/
def rsplitColon (s : String) : Option (String × String) :=
  match s.data.reverse.dropWhile (fun c => c != ':') with
  | [] => none
  | _ :: before =>
    some (String.mk before.reverse,
      String.mk ((s.data.reverse.takeWhile (fun c => c != ':')).reverse))

/-- Python `s.rstrip()` (trailing whitespace removal). -/
def pyRstrip (s : String) : String :=
  String.mk (s.data.reverse.dropWhile Char.isWhitespace).reverse

/-- Python `s.split("\n")` at the character level: splits at every newline
and keeps empty pieces, so the result is always nonempty. -/
def splitNlAux : List Char → List (List Char)
  | [] => [[]]
  | c :: rest =>
    if c = '\n' then [] :: splitNlAux rest
    else
      match splitNlAux rest with
      | [] => [[c]]
      | g :: gs => (c :: g) :: gs

def pySplitLines (s : String) : List String := (splitNlAux s.data).map String.mk

/-! ## Python str.format with keyword substitution -/

def lookupStr : List (String × String) → String → Option String
  | [], _ => none
  | (k, v) :: rest, key => if k == key then some v else lookupStr rest key

/-- Python `s.format(**subst)` at the character level, fuel-structured for
kernel evaluation (`fuel ≥ length` is always sufficient).  `{key}` is
replaced by the value bound to `key`; `\x7b\x7b` and `\x7d\x7d` are literal
braces; an unmatched or unknown brace construct raises (`none`).
Substituted values are not rescanned. -/
def pyFormatAux (subst : List (String × String)) : Nat → List Char → Option (List Char)
  | _, [] => some []
  | 0, _ :: _ => none
  | fuel + 1, c :: rest =>
    if c = lbrace then
      match rest with
      | [] => none
      | c2 :: rest2 =>
        if c2 = lbrace then (pyFormatAux subst fuel rest2).map fun t => lbrace :: t
        else
          match (c2 :: rest2).dropWhile (fun x => x != rbrace) with
          | [] => none
          | _ :: after =>
            match lookupStr subst (String.mk ((c2 :: rest2).takeWhile (fun x => x != rbrace))) with
            | none => none
            | some v => (pyFormatAux subst fuel after).map fun t => v.data ++ t
    else if c = rbrace then
      match rest with
      | [] => none
      | c2 :: rest2 =>
        if c2 = rbrace then (pyFormatAux subst fuel rest2).map fun t => rbrace :: t else none
    else (pyFormatAux subst fuel rest).map fun t => c :: t

def pyFormat (subst : List (String × String)) (s : String) : Option String :=
  (pyFormatAux subst s.data.length s.data).map String.mk

/-- The command-line construction of `RunTool.__enter__`: every pattern
element is formatted with the temp-file name substitution. -/
def formatArgs (subst : List (String × String)) : List String → Option (List String)
  | [] => some []
  | p :: rest =>
    match pyFormat subst p with
    | none => none
    | some q => (formatArgs subst rest).map fun qs => q :: qs

/-- A string free of brace characters is left unchanged by `pyFormat`. -/
def braceFree (s : String) : Prop := ∀ c ∈ s.data, c ≠ lbrace ∧ c ≠ rbrace

instance (s : String) : Decidable (braceFree s) := by
  unfold braceFree; infer_instance

/-! ## The external-process oracle and RunTool (targets.py lines 9-44)

`RunTool.__enter__` materializes each `tempdata` entry as a named temporary
file, formats the command-line pattern with the temp-file names, runs the
subprocess and captures its output; a non-zero exit status raises
`Exception("{} invocation failed: {}".format(cmdline[0], stderr))` (the
spec's `ToolInvocationError`).  `RunTool.__exit__` closes every temporary
file it created, which deletes it from disk. -/

instance {ε α : Type} [DecidableEq ε] [DecidableEq α] : DecidableEq (Except ε α) := fun
  | .error e, .error f =>
    match decEq e f with
    | isTrue h => isTrue (h ▸ rfl)
    | isFalse h => isFalse fun hh => h (Except.error.inj hh)
  | .ok x, .ok y =>
    match decEq x y with
    | isTrue h => isTrue (h ▸ rfl)
    | isFalse h => isFalse fun hh => h (Except.ok.inj hh)
  | .error _, .ok _ => isFalse fun hh => Except.noConfusion hh
  | .ok _, .error _ => isFalse fun hh => Except.noConfusion hh

structure ProcResult where
  returncode : Int
  stdout : String
  stderr : String
  deriving DecidableEq

inductive PyErr where
  | keyError
  | valueError
  | stopIteration
  | indexError
  | toolInvocation (program : String) (stderrText : String)
  deriving DecidableEq

/-- One temporary file made by `RunTool.maketemp`: its `tempdata` key, its
generated on-disk name, and the bytes written into it. -/
structure TempSpec where
  key : String
  name : String
  content : String
  deriving DecidableEq

/-- What `RunTool.__enter__` returns on success: the dict of temporary file
handles by key, plus the captured stdout under the reserved key
`__stdout__`. -/
structure ToolResults where
  files : List TempSpec
  stdout : String
  deriving DecidableEq

/-- `RunTool.__enter__`: make the temp files, format the pattern with their
names, run the subprocess, and either raise on non-zero exit status or
return the handles and stdout.  The second component records the external
invocations performed (the single formatted command line, or none when
formatting raised before `Popen`).  Format failures model Python's
`KeyError`; `cmdline[0]` on an empty command line models `IndexError`. -/
def runToolEnter (pattern : List String) (temps : List TempSpec)
    (proc : List String → ProcResult) :
    Except PyErr ToolResults × List (List String) :=
  let subst := temps.map fun t => (t.key, t.name)
  match formatArgs subst pattern with
  | none => (.error .keyError, [])
  | some cmdline =>
    let r := proc cmdline
    if r.returncode ≠ 0 then
      match cmdline with
      | [] => (.error .indexError, [cmdline])
      | c0 :: _ => (.error (.toolInvocation c0 r.stderr), [cmdline])
    else (.ok { files := temps, stdout := r.stdout }, [cmdline])

/-- The statement `with RunTool(pattern, **tempdata) as results: body`,
with the disk modelled as the list of temporary file names present.
`__enter__` first creates every temporary file on disk; per Python's
context-manager protocol, if `__enter__` itself raises (tool exited
non-zero, or formatting failed) then `__exit__` is NOT invoked, so the
created files are not closed/deleted; if `__enter__` returns, `__exit__`
runs after the body on every path (the body's own failure is a `body`
result of `.error`) and closes, hence deletes, every file in
`self.files`. -/
def withRunTool {α : Type} (pattern : List String) (temps : List TempSpec)
    (proc : List String → ProcResult) (disk : List String)
    (body : ToolResults → Except PyErr α) :
    Except PyErr α × List String :=
  let created := temps.map fun t => t.name
  let diskAfterEnter := disk ++ created
  match (runToolEnter pattern temps proc).1 with
  | .error e => (.error e, diskAfterEnter)
  | .ok results => (body results, diskAfterEnter.filter fun n => !created.contains n)

/-! ## Target.symbolize and Target.demangle (targets.py lines 188-225) -/

/-- One parsed backtrace entry, the tuple
`(filename, line, column, function, address)` appended by `symbolize`. -/
structure BacktraceEntry where
  filename : String
  line : Int
  column : Int
  function : String
  address : Int
  deriving DecidableEq

/-- Python `filename == "??" or filename == "<synthesized>"`. -/
def sentinelFile (f : String) : Bool := f == "??" || f == "<synthesized>"

/-- Processing of one location line: `filename, line = location.rsplit(":", 1)`
(a split that does not yield two pieces raises `ValueError`), then the
sentinel-filename check (`continue`, i.e. no entry), then the tuple append
whose `int(line)` may raise `ValueError`.  The column is always `-1`. -/
def handleLocation (function : String) (address : Int) (location : String) :
    Except PyErr (Option BacktraceEntry) :=
  match rsplitColon location with
  | none => .error .valueError
  | some (filename, lineStr) =>
    if sentinelFile filename then .ok none
    else
      match pyInt lineStr with
      | none => .error .valueError
      | some l => .ok (some { filename := filename, line := l, column := -1,
                              function := function, address := address })

/-- The `while True` parse loop of `symbolize` over the resolver's output
lines.  A line starting with "0x" opens a root record (address line,
function line, location line): the hex body is parsed (a parse failure is
`ValueError`) and 1 is added back to undo the query offset.  Any other
line is an inlined record (function line, location line) reusing the
address of the most recently appended entry, `backtrace[-1][4]`, which on
an empty backtrace raises `IndexError`.  A record cut short by the end of
the lines raises `StopIteration` from the inner `next(lines)` calls. -/
def parseLoop : List String → List BacktraceEntry → Except PyErr (List BacktraceEntry)
  | [], backtrace => .ok backtrace
  | addressOrFunction :: rest, backtrace =>
    if startsWith0x addressOrFunction then
      match parseHex (pyDropTwo addressOrFunction) with
      | none => .error .valueError
      | some v =>
        match rest with
        | [] => .error .stopIteration
        | function :: rest2 =>
          match rest2 with
          | [] => .error .stopIteration
          | location :: rest3 =>
            match handleLocation function ((v : Int) + 1) location with
            | .error e => .error e
            | .ok none => parseLoop rest3 backtrace
            | .ok (some entry) => parseLoop rest3 (backtrace ++ [entry])
    else
      match backtrace.getLast? with
      | none => .error .indexError
      | some prev =>
        match rest with
        | [] => .error .stopIteration
        | location :: rest2 =>
          match handleLocation addressOrFunction prev.address location with
          | .error e => .error e
          | .ok none => parseLoop rest2 backtrace
          | .ok (some entry) => parseLoop rest2 (backtrace ++ [entry])

/-- The addr2line command-line pattern of `symbolize`, before formatting. -/
def addr2linePattern (triple : String) (offsets : List String) : List String :=
  [triple ++ "-addr2line", "--addresses", "--functions", "--inlines", "--demangle",
    "--exe={library}"] ++ offsets

/-- `Target.symbolize`: the empty-address fast path returns an empty
backtrace with no invocation; otherwise each address is offset by one and
rendered with `hex`, the resolver is run once through `RunTool` with the
library bytes as the `library` temp file (whose generated name is
`tmpName`), and the rstripped stdout is split into lines and parsed.
The second component lists the external invocations performed. -/
def symbolize (triple : String) (proc : List String → ProcResult)
    (library : String) (tmpName : String) (addresses : List Int) :
    Except PyErr (List BacktraceEntry) × List (List String) :=
  if addresses = [] then (.ok [], [])
  else
    let offsets := addresses.map fun addr => pyHex (addr - 1)
    match runToolEnter (addr2linePattern triple offsets)
        [{ key := "library", name := tmpName, content := library }] proc with
    | (.error e, inv) => (.error e, inv)
    | (.ok results, inv) => (parseLoop (pySplitLines (pyRstrip results.stdout)) [], inv)

/-- `Target.demangle`: one `RunTool` invocation of `{triple}-c++filt` with
the whole batch of names as arguments, returning the rstripped stdout
split into lines. -/
def demangle (triple : String) (proc : List String → ProcResult) (names : List String) :
    Except PyErr (List String) × List (List String) :=
  match runToolEnter ((triple ++ "-c++filt") :: names) [] proc with
  | (.error e, inv) => (.error e, inv)
  | (.ok results, inv) => (.ok (pySplitLines (pyRstrip results.stdout)), inv)

/-! ## _dump and Target.compile (targets.py lines 46-58 and 126-154) -/

/-- Where a `_dump` call wrote its bytes: an auto-named fresh temporary
file with the stage suffix (`target == ""`), or the explicit path
`target + suffix`. -/
inductive DumpPath where
  | freshTemp (suffix : String)
  | explicit (path : String)
  deriving DecidableEq

structure DumpRec where
  kind : String
  path : DumpPath
  content : String
  deriving DecidableEq

/-- `_dump(target, kind, suffix, content)`: nothing happens when `target`
is `None` (in particular the lazy `content` thunk is never forced — the
Boolean records whether it was); otherwise the content is materialized and
written either to a fresh auto-named temp file (empty target) or to
`target + suffix`. -/
def pyDump (target : Option String) (kind suffix : String) (content : Unit → String) :
    Option DumpRec × Bool :=
  match target with
  | none => (none, false)
  | some t =>
    let v := content ()
    if t = "" then (some { kind := kind, path := .freshTemp suffix, content := v }, true)
    else (some { kind := kind, path := .explicit (t ++ suffix), content := v }, true)

/-- Python truthiness of `os.getenv(...)`: `None` and the empty string are
falsy, any other string is truthy. -/
def pyTruthy : Option String → Bool
  | none => false
  | some s => !(s == "")

/-- The diagnostic environment switches read by `Target.compile`:
`ARTIQ_DUMP_SIG`, `ARTIQ_DUMP_IR`, `ARTIQ_DUMP_UNOPT_LLVM`,
`ARTIQ_DUMP_LLVM` (each `none` when the variable is absent). -/
structure DumpEnv where
  dumpSig : Option String
  dumpIr : Option String
  dumpUnoptLlvm : Option String
  dumpLlvm : Option String

/-- The data `Target.compile` obtains from its collaborators: the printed
module signature, the joined textual ARTIQ IR, `str(llmod)` from
`build_llvm_ir`, whether `parse_assembly` + `verify` succeeds (a failure is
the `RuntimeError` the code re-raises, the spec's
`BackendVerificationError`), and the textual parsed module before and
after `optimize`. -/
structure CompileInputs where
  moduleText : String
  artiqIrText : String
  llmodText : String
  verifyOk : Bool
  parsedText : String
  optimizedText : String

inductive CompileOutcome where
  | ok (llmodule : String)
  | backendVerificationError
  deriving DecidableEq

structure CompileResult where
  outcome : CompileOutcome
  dumps : List DumpRec
  stderrLines : List String
  deriving DecidableEq

/-- `Target.compile`: the signature dump is a plain truthiness-gated
`print` to stderr (not a `_dump` call and never a file); the ARTIQ IR dump
is a `_dump` gated by its switch; a verification failure dumps the broken
IR through `_dump("", ...)` — unconditionally, the target being the empty
string rather than an environment switch — and re-raises; otherwise the
unoptimized and optimized LLVM IR dumps are switch-gated and the optimized
module is returned. -/
def compile (env : DumpEnv) (inp : CompileInputs) : CompileResult :=
  let sigLines :=
    if pyTruthy env.dumpSig then ["====== MODULE_SIGNATURE DUMP ======", inp.moduleText]
    else []
  let d1 := pyDump env.dumpIr "ARTIQ IR" ".txt" fun _ => inp.artiqIrText
  if inp.verifyOk then
    let d3 := pyDump env.dumpUnoptLlvm "LLVM IR (generated)" "_unopt.ll" fun _ => inp.parsedText
    let d4 := pyDump env.dumpLlvm "LLVM IR (optimized)" ".ll" fun _ => inp.optimizedText
    { outcome := .ok inp.optimizedText,
      dumps := d1.1.toList ++ d3.1.toList ++ d4.1.toList,
      stderrLines := sigLines }
  else
    let d2 := pyDump (some "") "LLVM IR (broken)" ".ll" fun _ => inp.llmodText
    { outcome := .backendVerificationError,
      dumps := d1.1.toList ++ d2.1.toList,
      stderrLines := sigLines }

/-! ## List helpers -/

theorem takeWhile_append_all {p : Char → Bool} :
    ∀ (l m : List Char), (∀ c ∈ l, p c = true) →
      (l ++ m).takeWhile p = l ++ m.takeWhile p := by
  intro l m h
  induction l with
  | nil => simp
  | cons c l ih =>
    have hc : p c = true := h c (by simp)
    simp only [List.cons_append, List.takeWhile_cons, hc, ih (fun x hx => h x (by simp [hx]))]
    simp

theorem dropWhile_append_all {p : Char → Bool} :
    ∀ (l m : List Char), (∀ c ∈ l, p c = true) →
      (l ++ m).dropWhile p = m.dropWhile p := by
  intro l m h
  induction l with
  | nil => simp
  | cons c l ih =>
    have hc : p c = true := h c (by simp)
    simp only [List.cons_append, List.dropWhile_cons, hc, if_true,
      ih (fun x hx => h x (by simp [hx]))]

/-! ## Correctness of the hex round trip -/

theorem hexVal_hexDigitChar (d : Nat) (h : d < 16) : hexVal (hexDigitChar d) = some d := by
  interval_cases d <;> decide

theorem hexStep_some (a d : Nat) (h : d < 16) :
    hexStep (some a) (hexDigitChar d) = some (a * 16 + d) := by
  simp [hexStep, hexVal_hexDigitChar d h]

theorem foldl_hexStep_hexRepAux :
    ∀ (fuel n a : Nat), n ≤ fuel →
      List.foldl hexStep (some a) (hexRepAux fuel n)
        = some (a * 16 ^ (hexRepAux fuel n).length + n) := by
  intro fuel
  induction fuel with
  | zero =>
    intro n a h
    interval_cases n
    simp [hexRepAux]
  | succ f ih =>
    intro n a h
    match n with
    | 0 => simp [hexRepAux]
    | m + 1 =>
      have hdivle : (m + 1) / 16 ≤ f := by
        have := Nat.div_lt_self (Nat.succ_pos m) (by norm_num : 1 < 16)
        omega
      have hmod : (m + 1) % 16 < 16 := Nat.mod_lt _ (by norm_num)
      have hdm : (m + 1) / 16 * 16 + (m + 1) % 16 = m + 1 := by
        have := Nat.div_add_mod (m + 1) 16
        omega
      rw [hexRepAux, List.foldl_append, ih ((m + 1) / 16) a hdivle, List.foldl_cons,
        hexStep_some _ _ hmod, List.foldl_nil, List.length_append]
      congr 1
      have hlen : (hexRepAux f ((m + 1) / 16)).length + [hexDigitChar ((m + 1) % 16)].length
          = (hexRepAux f ((m + 1) / 16)).length + 1 := by simp
      rw [hlen]
      calc (a * 16 ^ (hexRepAux f ((m + 1) / 16)).length + (m + 1) / 16) * 16 + (m + 1) % 16
          = a * (16 ^ (hexRepAux f ((m + 1) / 16)).length * 16)
              + ((m + 1) / 16 * 16 + (m + 1) % 16) := by ring
        _ = a * 16 ^ ((hexRepAux f ((m + 1) / 16)).length + 1) + (m + 1) := by
              rw [pow_succ, hdm]

theorem parseHexCore_hexStr (n : Nat) : parseHexCore (hexStr n) = some n := by
  by_cases h : n = 0
  · subst h; decide
  · rw [hexStr, if_neg h, hexRep, parseHexCore,
      foldl_hexStep_hexRepAux n n 0 (le_refl n)]
    simp

theorem hexRepAux_ne_nil (fuel n : Nat) (h1 : 0 < n) (h2 : n ≤ fuel) :
    hexRepAux fuel n ≠ [] := by
  match fuel, n with
  | _, 0 => omega
  | 0, _ + 1 => omega
  | f + 1, m + 1 => rw [hexRepAux]; simp

theorem hexStr_ne_nil (n : Nat) : hexStr n ≠ [] := by
  by_cases h : n = 0
  · subst h; decide
  · rw [hexStr, if_neg h, hexRep]
    exact hexRepAux_ne_nil n n (Nat.pos_of_ne_zero h) (le_refl n)

theorem parseHex_mk_hexStr (n : Nat) : parseHex (String.mk (hexStr n)) = some n := by
  rw [parseHex]
  rw [if_neg (by simpa using hexStr_ne_nil n)]
  exact parseHexCore_hexStr n

theorem pyHex_nonneg_data (i : Int) (h : 0 ≤ i) :
    (pyHex i).data = '0' :: 'x' :: hexStr i.toNat := by
  rw [pyHex, if_neg (by omega)]
  rw [String.data_append]
  rfl

theorem startsWith0x_pyHex (i : Int) (h : 0 ≤ i) : startsWith0x (pyHex i) = true := by
  rw [startsWith0x, pyHex_nonneg_data i h]
  rfl

theorem pyDropTwo_pyHex (i : Int) (h : 0 ≤ i) :
    pyDropTwo (pyHex i) = String.mk (hexStr i.toNat) := by
  rw [pyDropTwo, pyHex_nonneg_data i h]
  rfl

/-- The address round trip of `symbolize`: querying `hex(a - 1)` and
adding one to the parsed hex body recovers `a`, for any address `a ≥ 1`. -/
theorem parseHex_pyHex_roundtrip (a : Int) (h : 1 ≤ a) :
    ∃ v : Nat, parseHex (pyDropTwo (pyHex (a - 1))) = some v ∧ (v : Int) + 1 = a := by
  refine ⟨(a - 1).toNat, ?_, ?_⟩
  · rw [pyDropTwo_pyHex (a - 1) (by omega)]
    exact parseHex_mk_hexStr _
  · omega

/-! ## rsplit on the location line -/

theorem rsplitColon_append (file lineStr : String)
    (h : ∀ c ∈ lineStr.data, c ≠ ':') :
    rsplitColon (file ++ ":" ++ lineStr) = some (file, lineStr) := by
  have hdata : (file ++ ":" ++ lineStr).data = file.data ++ ':' :: lineStr.data := by
    rw [String.data_append, String.data_append]
    simp
  have hrev : (file.data ++ ':' :: lineStr.data).reverse
      = lineStr.data.reverse ++ ':' :: file.data.reverse := by
    simp
  have hall : ∀ c ∈ lineStr.data.reverse, (c != ':') = true := by
    intro c hc
    simpa using h c (List.mem_reverse.mp hc)
  have hdrop : (lineStr.data.reverse ++ ':' :: file.data.reverse).dropWhile (fun c => c != ':')
      = ':' :: file.data.reverse := by
    rw [dropWhile_append_all _ _ hall]
    simp [List.dropWhile_cons]
  have htake : (lineStr.data.reverse ++ ':' :: file.data.reverse).takeWhile (fun c => c != ':')
      = lineStr.data.reverse := by
    rw [takeWhile_append_all _ _ hall]
    simp [List.takeWhile_cons]
  rw [rsplitColon, hdata, hrev, hdrop, htake]
  simp

/-! ## pyFormat lemmas -/

theorem pyFormatAux_braceFree (subst : List (String × String)) :
    ∀ (fuel : Nat) (cs : List Char), cs.length ≤ fuel →
      (∀ c ∈ cs, c ≠ lbrace ∧ c ≠ rbrace) →
      pyFormatAux subst fuel cs = some cs := by
  intro fuel
  induction fuel with
  | zero =>
    intro cs hlen _
    match cs with
    | [] => rfl
    | _ :: _ => simp at hlen
  | succ f ih =>
    intro cs hlen hbf
    match cs with
    | [] => rfl
    | c :: rest =>
      have hc := hbf c (by simp)
      have hrest := ih rest (by simp at hlen; omega) (fun x hx => hbf x (by simp [hx]))
      simp only [pyFormatAux]
      rw [if_neg hc.1, if_neg hc.2, hrest]
      rfl

theorem pyFormat_braceFree (subst : List (String × String)) (s : String)
    (h : braceFree s) : pyFormat subst s = some s := by
  rw [pyFormat, pyFormatAux_braceFree subst s.data.length s.data (le_refl _) h]
  rfl

/-- Formatting a string made of a brace-free prefix followed by a single
`\x7bkey\x7d` placeholder substitutes the bound value. -/
theorem pyFormatAux_placeholder (subst : List (String × String)) :
    ∀ (fuel : Nat) (pre key : List Char) (v : String),
      (∀ c ∈ pre, c ≠ lbrace ∧ c ≠ rbrace) →
      (∀ c ∈ key, c ≠ lbrace ∧ c ≠ rbrace) →
      key ≠ [] →
      lookupStr subst (String.mk key) = some v →
      pre.length + key.length + 2 ≤ fuel →
      pyFormatAux subst fuel (pre ++ lbrace :: (key ++ [rbrace])) = some (pre ++ v.data) := by
  intro fuel
  induction fuel with
  | zero =>
    intro pre key v _ _ _ _ hlen
    omega
  | succ f ih =>
    intro pre key v hpre hkey hkeyne hlook hlen
    match pre with
    | [] =>
      simp only [List.nil_append]
      match key, hkeyne with
      | k0 :: key1, _ =>
        have hk0 := hkey k0 (by simp)
        have hkeyall : ∀ c ∈ k0 :: key1, (c != rbrace) = true := by
          intro c hc
          simpa using (hkey c hc).2
        have htake : ((k0 :: key1) ++ [rbrace]).takeWhile (fun x => x != rbrace)
            = k0 :: key1 := by
          rw [takeWhile_append_all _ _ hkeyall]
          simp [List.takeWhile_cons]
        have hdrop : ((k0 :: key1) ++ [rbrace]).dropWhile (fun x => x != rbrace)
            = [rbrace] := by
          rw [dropWhile_append_all _ _ hkeyall]
          simp [List.dropWhile_cons]
        simp only [List.nil_append, pyFormatAux, if_true]
        simp only [List.cons_append] at htake hdrop ⊢
        rw [if_neg hk0.1, hdrop, htake, hlook]
        simp [pyFormatAux]
    | c :: pre1 =>
      have hc := hpre c (by simp)
      have hrec := ih pre1 key v (fun x hx => hpre x (by simp [hx])) hkey hkeyne hlook
        (by simp at hlen ⊢; omega)
      simp only [List.cons_append, pyFormatAux, List.append_eq]
      rw [if_neg hc.1, if_neg hc.2, hrec]
      rfl

theorem pyFormat_placeholder (subst : List (String × String)) (pre key v : String)
    (hpre : braceFree pre) (hkey : braceFree key) (hkeyne : key.data ≠ [])
    (hlook : lookupStr subst key = some v) :
    pyFormat subst (String.mk (pre.data ++ lbrace :: (key.data ++ [rbrace])))
      = some (pre ++ v) := by
  rw [pyFormat]
  have : (String.mk (pre.data ++ lbrace :: (key.data ++ [rbrace]))).data
      = pre.data ++ lbrace :: (key.data ++ [rbrace]) := rfl
  rw [this, pyFormatAux_placeholder subst _ pre.data key.data v hpre hkey hkeyne
    (by rw [show String.mk key.data = key from rfl]; exact hlook)
    (by simp; omega)]
  rfl

theorem formatArgs_cons (subst : List (String × String)) (p : String) (rest : List String)
    (q : String) (qs : List String) (h1 : pyFormat subst p = some q)
    (h2 : formatArgs subst rest = some qs) :
    formatArgs subst (p :: rest) = some (q :: qs) := by
  rw [formatArgs, h1, h2]
  rfl

theorem formatArgs_braceFree_list (subst : List (String × String)) :
    ∀ (l : List String), (∀ s ∈ l, braceFree s) → formatArgs subst l = some l := by
  intro l h
  induction l with
  | nil => rfl
  | cons p rest ih =>
    exact formatArgs_cons subst p rest p rest
      (pyFormat_braceFree subst p (h p (by simp)))
      (ih fun s hs => h s (by simp [hs]))

/-! ## Brace-freeness of the strings symbolize passes through format -/

theorem hexDigitChar_not_brace (d : Nat) (h : d < 16) :
    hexDigitChar d ≠ lbrace ∧ hexDigitChar d ≠ rbrace := by
  interval_cases d <;> decide

theorem hexRepAux_chars :
    ∀ (fuel n : Nat) (c : Char), c ∈ hexRepAux fuel n → ∃ d, d < 16 ∧ c = hexDigitChar d := by
  intro fuel
  induction fuel with
  | zero =>
    intro n c hc
    match n with
    | 0 => simp [hexRepAux] at hc
    | _ + 1 => simp [hexRepAux] at hc
  | succ f ih =>
    intro n c hc
    match n with
    | 0 => simp [hexRepAux] at hc
    | m + 1 =>
      rw [hexRepAux] at hc
      rcases List.mem_append.mp hc with h1 | h2
      · exact ih _ c h1
      · exact ⟨(m + 1) % 16, Nat.mod_lt _ (by norm_num), by simpa using h2⟩

theorem braceFree_pyHex (i : Int) : braceFree (pyHex i) := by
  have hcore : ∀ n (c : Char), c ∈ hexStr n → c ≠ lbrace ∧ c ≠ rbrace := by
    intro n c hc
    by_cases h : n = 0
    · subst h
      simp [hexStr] at hc
      subst hc
      decide
    · rw [hexStr, if_neg h, hexRep] at hc
      obtain ⟨d, hd, rfl⟩ := hexRepAux_chars n n c hc
      exact hexDigitChar_not_brace d hd
  intro c hc
  rw [pyHex] at hc
  by_cases h : i < 0
  · rw [if_pos h, String.data_append] at hc
    rcases List.mem_append.mp hc with h1 | h2
    · have h1' : c = '-' ∨ c = '0' ∨ c = 'x' := by simpa using h1
      rcases h1' with rfl | rfl | rfl <;> decide
    · exact hcore _ c h2
  · rw [if_neg h, String.data_append] at hc
    rcases List.mem_append.mp hc with h1 | h2
    · have h1' : c = '0' ∨ c = 'x' := by simpa using h1
      rcases h1' with rfl | rfl <;> decide
    · exact hcore _ c h2

theorem braceFree_append (s t : String) (hs : braceFree s) (ht : braceFree t) :
    braceFree (s ++ t) := by
  intro c hc
  rw [String.data_append] at hc
  rcases List.mem_append.mp hc with h1 | h2
  · exact hs c h1
  · exact ht c h2

/-- The formatted addr2line command line of `symbolize`: the exe argument
receives the library temp-file name, and every other element — including
each offset hex token — passes through unchanged. -/
theorem formatArgs_addr2line (triple name : String) (offsets : List String)
    (ht : braceFree triple) (ho : ∀ o ∈ offsets, braceFree o) :
    formatArgs [("library", name)] (addr2linePattern triple offsets)
      = some ([triple ++ "-addr2line", "--addresses", "--functions", "--inlines",
          "--demangle", "--exe=" ++ name] ++ offsets) := by
  have hexe : pyFormat [("library", name)] "--exe={library}" = some ("--exe=" ++ name) := by
    have h := pyFormat_placeholder [("library", name)] "--exe=" "library" name
      (by decide) (by decide) (by decide) (by rfl)
    have : String.mk ("--exe=".data ++ lbrace :: ("library".data ++ [rbrace]))
        = "--exe={library}" := by rfl
    rwa [this] at h
  rw [addr2linePattern]
  refine formatArgs_cons _ _ _ _ _
    (pyFormat_braceFree _ _ (braceFree_append triple "-addr2line" ht (by decide))) ?_
  refine formatArgs_cons _ _ _ _ _ (pyFormat_braceFree _ _ (by decide)) ?_
  refine formatArgs_cons _ _ _ _ _ (pyFormat_braceFree _ _ (by decide)) ?_
  refine formatArgs_cons _ _ _ _ _ (pyFormat_braceFree _ _ (by decide)) ?_
  refine formatArgs_cons _ _ _ _ _ (pyFormat_braceFree _ _ (by decide)) ?_
  refine formatArgs_cons _ _ _ _ _ hexe ?_
  exact formatArgs_braceFree_list _ offsets ho

/-! ## runToolEnter characterization -/

theorem runToolEnter_ok (pattern : List String) (temps : List TempSpec)
    (proc : List String → ProcResult) (cmdline : List String)
    (hfmt : formatArgs (temps.map fun t => (t.key, t.name)) pattern = some cmdline)
    (hrc : (proc cmdline).returncode = 0) :
    runToolEnter pattern temps proc
      = (.ok { files := temps, stdout := (proc cmdline).stdout }, [cmdline]) := by
  simp only [runToolEnter]
  rw [hfmt]
  simp [hrc]

theorem runToolEnter_err (pattern : List String) (temps : List TempSpec)
    (proc : List String → ProcResult) (c0 : String) (rest : List String)
    (hfmt : formatArgs (temps.map fun t => (t.key, t.name)) pattern = some (c0 :: rest))
    (hrc : (proc (c0 :: rest)).returncode ≠ 0) :
    runToolEnter pattern temps proc
      = (.error (.toolInvocation c0 (proc (c0 :: rest)).stderr), [c0 :: rest]) := by
  simp only [runToolEnter]
  rw [hfmt]
  simp [hrc]

/-! ## Root records of the addr2line output -/

/-- One well-formed root record of the resolver output for original address
`addr`: the echoed address token `hex(addr - 1)`, a function-name line, and
a `file:line` location line. -/
structure RootRec where
  addr : Int
  fn : String
  file : String
  lineStr : String

def rootLines (r : RootRec) : List String :=
  [pyHex (r.addr - 1), r.fn, r.file ++ ":" ++ r.lineStr]

/-- Well-formedness of a root record: a positive original address (so the
echoed token starts with "0x"), a colon-free line-number field, and — for
non-sentinel filenames — a line-number field `int` accepts. -/
def wfRoot (r : RootRec) : Prop :=
  1 ≤ r.addr ∧ (∀ c ∈ r.lineStr.data, c ≠ ':') ∧
    (sentinelFile r.file = true ∨ (pyInt r.lineStr).isSome = true)

def entryOf (r : RootRec) : BacktraceEntry :=
  { filename := r.file, line := (pyInt r.lineStr).getD 0, column := -1,
    function := r.fn, address := r.addr }

instance (r : RootRec) : Decidable (wfRoot r) := by
  unfold wfRoot; infer_instance

theorem handleLocation_split (function : String) (address : Int) (file lineStr : String)
    (hc : ∀ c ∈ lineStr.data, c ≠ ':')
    (hp : sentinelFile file = true ∨ (pyInt lineStr).isSome = true) :
    handleLocation function address (file ++ ":" ++ lineStr)
      = if sentinelFile file then .ok none
        else .ok (some { filename := file, line := (pyInt lineStr).getD 0, column := -1,
                         function := function, address := address }) := by
  rw [handleLocation, rsplitColon_append file lineStr hc]
  by_cases hs : sentinelFile file
  · simp [hs]
  · rcases hp with hp | hp
    · exact absurd hp hs
    · obtain ⟨l, hl⟩ := Option.isSome_iff_exists.mp hp
      simp [hs, hl]

theorem parseLoop_root_step (r : RootRec) (more : List String) (acc : List BacktraceEntry)
    (h : wfRoot r) :
    parseLoop (rootLines r ++ more) acc
      = if sentinelFile r.file then parseLoop more acc
        else parseLoop more (acc ++ [entryOf r]) := by
  obtain ⟨haddr, hcolon, hline⟩ := h
  obtain ⟨v, hv, hva⟩ := parseHex_pyHex_roundtrip r.addr haddr
  rw [rootLines]
  simp only [List.cons_append, List.nil_append]
  simp only [parseLoop]
  rw [if_pos (startsWith0x_pyHex (r.addr - 1) (by omega)), hv]
  dsimp only
  rw [handleLocation_split r.fn ((v : Int) + 1) r.file r.lineStr hcolon hline]
  rw [hva]
  by_cases hs : sentinelFile r.file
  · simp [hs, entryOf]
  · simp [hs, entryOf]

theorem parseLoop_rootRecords :
    ∀ (recs : List RootRec) (more : List String) (acc : List BacktraceEntry),
      (∀ r ∈ recs, wfRoot r) →
      parseLoop (recs.flatMap rootLines ++ more) acc
        = parseLoop more (acc ++ ((recs.filter fun r => !sentinelFile r.file).map entryOf)) := by
  intro recs
  induction recs with
  | nil => intro more acc _; simp
  | cons r recs ih =>
    intro more acc h
    have hr := h r (by simp)
    have hbind : (r :: recs).flatMap rootLines ++ more
        = rootLines r ++ (recs.flatMap rootLines ++ more) := by
      simp [List.flatMap_cons]
    rw [hbind, parseLoop_root_step r _ acc hr]
    by_cases hs : sentinelFile r.file
    · rw [if_pos hs, ih _ acc (fun x hx => h x (by simp [hx]))]
      simp [List.filter_cons, hs]
    · rw [if_neg hs, ih _ (acc ++ [entryOf r]) (fun x hx => h x (by simp [hx]))]
      simp [List.filter_cons, hs]

/-! ## Only non-sentinel frames are ever appended -/

theorem handleLocation_some_nonsentinel (fn : String) (addr : Int) (loc : String)
    (e : BacktraceEntry) (h : handleLocation fn addr loc = .ok (some e)) :
    sentinelFile e.filename = false := by
  rw [handleLocation] at h
  match hsplit : rsplitColon loc with
  | none => rw [hsplit] at h; exact absurd h (by simp)
  | some (filename, lineStr) =>
    rw [hsplit] at h
    dsimp only at h
    by_cases hs : sentinelFile filename
    · rw [if_pos hs] at h
      exact absurd h (by simp)
    · rw [if_neg hs] at h
      match hint : pyInt lineStr with
      | none => rw [hint] at h; exact absurd h (by simp)
      | some l =>
        rw [hint] at h
        have : e = { filename := filename, line := l, column := -1,
                     function := fn, address := addr } := by
          have := Except.ok.inj h
          exact (Option.some.inj this).symm
        rw [this]
        simpa using hs

theorem parseLoop_entries_nonsentinel_aux :
    ∀ (n : Nat) (lines : List String), lines.length ≤ n →
      ∀ (acc res : List BacktraceEntry),
        parseLoop lines acc = .ok res →
        ∀ e ∈ res, e ∈ acc ∨ sentinelFile e.filename = false := by
  intro n
  induction n with
  | zero =>
    intro lines hlen acc res h e he
    match lines with
    | [] =>
      simp only [parseLoop] at h
      left
      rw [Except.ok.inj h]
      exact he
  | succ m ih =>
    intro lines hlen acc res h e he
    match lines with
    | [] =>
      simp only [parseLoop] at h
      left
      rw [Except.ok.inj h]
      exact he
    | l :: rest =>
      simp only [parseLoop] at h
      simp only [List.length_cons] at hlen
      split at h
      · split at h
        · exact absurd h (by simp)
        · split at h
          · exact absurd h (by simp)
          · split at h
            · exact absurd h (by simp)
            · split at h
              · exact absurd h (by simp)
              · rename_i rest3 _
                exact ih _ (by simp_all; omega) acc res h e he
              · rename_i location rest3 entry heq
                rcases ih _ (by simp_all; omega) (acc ++ [entry]) res h e he with hin | hns
                · rcases List.mem_append.mp hin with hin | hin
                  · exact Or.inl hin
                  · right
                    rw [List.mem_singleton.mp hin]
                    exact handleLocation_some_nonsentinel _ _ _ _ heq
                · exact Or.inr hns
      · split at h
        · exact absurd h (by simp)
        · split at h
          · exact absurd h (by simp)
          · split at h
            · exact absurd h (by simp)
            · rename_i rest2 _
              exact ih _ (by simp_all; omega) acc res h e he
            · rename_i location rest2 entry heq
              rcases ih _ (by simp_all; omega) (acc ++ [entry]) res h e he with hin | hns
              · rcases List.mem_append.mp hin with hin | hin
                · exact Or.inl hin
                · right
                  rw [List.mem_singleton.mp hin]
                  exact handleLocation_some_nonsentinel _ _ _ _ heq
              · exact Or.inr hns

theorem parseLoop_entries_nonsentinel (lines : List String) (acc res : List BacktraceEntry)
    (h : parseLoop lines acc = .ok res) :
    ∀ e ∈ res, e ∈ acc ∨ sentinelFile e.filename = false :=
  parseLoop_entries_nonsentinel_aux lines.length lines (le_refl _) acc res h

/-! ## The formatted symbolize command line -/

/-- The formatted command line `symbolize` hands to `Popen`: the addr2line
pattern with the library temp-file name substituted, followed by the
`hex(addr - 1)` tokens. -/
def symbolizeCmdline (triple tmpName : String) (addresses : List Int) : List String :=
  [triple ++ "-addr2line", "--addresses", "--functions", "--inlines", "--demangle",
    "--exe=" ++ tmpName] ++ addresses.map fun addr => pyHex (addr - 1)

theorem symbolize_eq (triple : String) (proc : List String → ProcResult)
    (library tmpName : String) (addresses : List Int)
    (hne : addresses ≠ []) (ht : braceFree triple)
    (hrc : (proc (symbolizeCmdline triple tmpName addresses)).returncode = 0) :
    symbolize triple proc library tmpName addresses
      = (parseLoop (pySplitLines (pyRstrip
            (proc (symbolizeCmdline triple tmpName addresses)).stdout)) [],
         [symbolizeCmdline triple tmpName addresses]) := by
  rw [symbolize, if_neg hne]
  dsimp only
  have hoff : ∀ o ∈ addresses.map fun addr => pyHex (addr - 1), braceFree o := by
    intro o ho
    obtain ⟨a, _, rfl⟩ := List.mem_map.mp ho
    exact braceFree_pyHex _
  have hfmt : formatArgs
      (([{ key := "library", name := tmpName, content := library }] : List TempSpec).map
        fun t => (t.key, t.name))
      (addr2linePattern triple (addresses.map fun addr => pyHex (addr - 1)))
      = some (symbolizeCmdline triple tmpName addresses) :=
    formatArgs_addr2line triple tmpName (addresses.map fun addr => pyHex (addr - 1)) ht hoff
  rw [runToolEnter_ok _ _ proc (symbolizeCmdline triple tmpName addresses) hfmt hrc]

theorem symbolize_nonempty_fst (triple : String) (proc : List String → ProcResult)
    (library tmpName : String) (addresses : List Int) (hne : addresses ≠ []) :
    (symbolize triple proc library tmpName addresses).1
      = match (runToolEnter
            (addr2linePattern triple (addresses.map fun addr => pyHex (addr - 1)))
            [{ key := "library", name := tmpName, content := library }] proc).1 with
        | .error e => .error e
        | .ok results => parseLoop (pySplitLines (pyRstrip results.stdout)) [] := by
  rw [symbolize, if_neg hne]
  dsimp only
  rcases hE : runToolEnter
      (addr2linePattern triple (addresses.map fun addr => pyHex (addr - 1)))
      [{ key := "library", name := tmpName, content := library }] proc with ⟨r, inv⟩
  cases r <;> rfl

/-! ## Claim theorems -/

/-- C10: for every empty address list, `symbolize` returns an empty
sequence and invokes no external process. -/
theorem symbolize_empty_addresses (triple : String) (proc : List String → ProcResult)
    (library tmpName : String) :
    symbolize triple proc library tmpName [] = (.ok [], []) := by
  rfl

/-- C4: for every address list whose resolver output is one well-formed
root record per address (no inlined records, no sentinel filenames),
`symbolize` returns exactly one `BacktraceEntry` per address, in input
order, each carrying the original unadjusted input address and column
`-1`. -/
theorem symbolize_wellformed_roots (triple : String) (proc : List String → ProcResult)
    (library tmpName : String) (addresses : List Int) (recs : List RootRec)
    (haddr : recs.map RootRec.addr = addresses)
    (hwf : ∀ r ∈ recs, wfRoot r)
    (hns : ∀ r ∈ recs, sentinelFile r.file = false)
    (ht : braceFree triple)
    (hout : ∀ cmd, (proc cmd).returncode = 0 ∧
        pySplitLines (pyRstrip (proc cmd).stdout) = recs.flatMap rootLines) :
    (symbolize triple proc library tmpName addresses).1 = .ok (recs.map entryOf)
      ∧ (recs.map entryOf).length = addresses.length
      ∧ (recs.map entryOf).map BacktraceEntry.address = addresses
      ∧ ∀ e ∈ recs.map entryOf, e.column = -1 := by
  have hfilter : recs.filter (fun r => !sentinelFile r.file) = recs := by
    rw [List.filter_eq_self]
    intro r hr
    simp [hns r hr]
  refine ⟨?_, ?_, ?_, ?_⟩
  · by_cases hne : addresses = []
    · subst hne
      have hrecs : recs = [] := List.map_eq_nil_iff.mp haddr
      subst hrecs
      rfl
    · have hcmd := symbolize_eq triple proc library tmpName addresses hne ht
        (hout (symbolizeCmdline triple tmpName addresses)).1
      rw [congrArg Prod.fst hcmd]
      rw [(hout (symbolizeCmdline triple tmpName addresses)).2]
      rw [← List.append_nil (recs.flatMap rootLines),
        parseLoop_rootRecords recs [] [] hwf, hfilter]
      rfl
  · rw [← haddr]
    simp
  · rw [← haddr, List.map_map]
    rfl
  · intro e he
    obtain ⟨r, _, rfl⟩ := List.mem_map.mp he
    rfl

/-- C5: the round trip of the return-address adjustment in `symbolize`:
for an input address `A ≥ 1` the token passed to the external resolver is
exactly `hex(A - 1)`, and the address reported in the resulting root
`BacktraceEntry` is exactly `A`, the adjustment having been undone by
adding 1 to the parsed address. -/
theorem symbolize_address_roundtrip (triple : String) (proc : List String → ProcResult)
    (library tmpName : String) (A : Int) (hA : 1 ≤ A)
    (fn file lineStr : String) (ht : braceFree triple)
    (hcolon : ∀ c ∈ lineStr.data, c ≠ ':')
    (hsent : sentinelFile file = false)
    (hline : (pyInt lineStr).isSome = true)
    (hout : ∀ cmd, (proc cmd).returncode = 0 ∧
        pySplitLines (pyRstrip (proc cmd).stdout)
          = rootLines { addr := A, fn := fn, file := file, lineStr := lineStr }) :
    (symbolize triple proc library tmpName [A]).2
        = [[triple ++ "-addr2line", "--addresses", "--functions", "--inlines", "--demangle",
            "--exe=" ++ tmpName, pyHex (A - 1)]]
      ∧ (symbolize triple proc library tmpName [A]).1
        = .ok [{ filename := file, line := (pyInt lineStr).getD 0, column := -1,
                 function := fn, address := A }] := by
  have hne : ([A] : List Int) ≠ [] := by simp
  have hcmd := symbolize_eq triple proc library tmpName [A] hne ht
    (hout (symbolizeCmdline triple tmpName [A])).1
  constructor
  · rw [congrArg Prod.snd hcmd]
    rfl
  · rw [congrArg Prod.fst hcmd]
    rw [(hout (symbolizeCmdline triple tmpName [A])).2]
    have hrec : wfRoot { addr := A, fn := fn, file := file, lineStr := lineStr } :=
      ⟨hA, hcolon, Or.inr hline⟩
    have hrun := parseLoop_rootRecords [{ addr := A, fn := fn, file := file, lineStr := lineStr }]
      [] [] (by intro r hr; rw [List.mem_singleton.mp hr]; exact hrec)
    simp only [List.flatMap_cons, List.flatMap_nil, List.append_nil, List.nil_append] at hrun
    dsimp only
    rw [hrun]
    simp [parseLoop, List.filter_cons, hsent, entryOf]

/-- C6: every resolved frame whose filename is "??" or "<synthesized>" is
omitted from any successful `symbolize` result, unconditionally; in
particular (second conjunct) a single address whose only frame is a
sentinel frame yields an empty result, so the output length need not match
the input length. -/
theorem symbolize_sentinel_frames_dropped :
    (∀ (triple : String) (proc : List String → ProcResult) (library tmpName : String)
        (addresses : List Int) (res : List BacktraceEntry),
        (symbolize triple proc library tmpName addresses).1 = .ok res →
        ∀ e ∈ res, e.filename ≠ "??" ∧ e.filename ≠ "<synthesized>")
      ∧ (symbolize "or1k-linux"
          (fun _ => { returncode := 0, stdout := "0x1003\nfoo\n??:?\n", stderr := "" })
          "LIB" "tmp0" [4100]).1 = .ok [] := by
  constructor
  · intro triple proc library tmpName addresses res h e he
    by_cases hne : addresses = []
    · subst hne
      have hres : ([] : List BacktraceEntry) = res := by
        have h' : (Except.ok [] : Except PyErr (List BacktraceEntry)) = .ok res := h
        exact Except.ok.inj h'
      rw [← hres] at he
      cases he
    · rw [symbolize_nonempty_fst triple proc library tmpName addresses hne] at h
      rcases hE : (runToolEnter
          (addr2linePattern triple (addresses.map fun addr => pyHex (addr - 1)))
          [{ key := "library", name := tmpName, content := library }] proc).1 with er | results
      · rw [hE] at h
        exact absurd h (by simp)
      · rw [hE] at h
        dsimp only at h
        rcases parseLoop_entries_nonsentinel _ [] res h e he with h0 | h0
        · cases h0
        · have := h0
          simp only [sentinelFile, Bool.or_eq_false_iff, beq_eq_false_iff_ne] at this
          exact this
  · decide

/-- C7: if the first record `symbolize` processes is an inlined record (its
first line does not start with "0x"), or every earlier root record was
dropped by the sentinel-filename filter so that no entry has been emitted
yet, then the inlined branch reads the last element of an empty backtrace
list and `symbolize` fails with an index error instead of returning a
backtrace. -/
theorem symbolize_inlined_first_index_error (triple : String)
    (proc : List String → ProcResult) (library tmpName : String) (addresses : List Int)
    (sentRecs : List RootRec) (firstInl : String) (rest : List String)
    (hne : addresses ≠ []) (ht : braceFree triple)
    (hwf : ∀ r ∈ sentRecs, wfRoot r ∧ sentinelFile r.file = true)
    (hinl : startsWith0x firstInl = false)
    (hout : ∀ cmd, (proc cmd).returncode = 0 ∧
        pySplitLines (pyRstrip (proc cmd).stdout)
          = sentRecs.flatMap rootLines ++ firstInl :: rest) :
    (symbolize triple proc library tmpName addresses).1 = .error .indexError := by
  have hcmd := symbolize_eq triple proc library tmpName addresses hne ht
    (hout (symbolizeCmdline triple tmpName addresses)).1
  rw [congrArg Prod.fst hcmd]
  dsimp only
  rw [(hout (symbolizeCmdline triple tmpName addresses)).2]
  rw [parseLoop_rootRecords sentRecs (firstInl :: rest) [] (fun r hr => (hwf r hr).1)]
  have hfilter : sentRecs.filter (fun r => !sentinelFile r.file) = [] := by
    rw [List.filter_eq_nil_iff]
    intro r hr
    simp [(hwf r hr).2]
  rw [hfilter]
  simp only [List.map_nil, List.nil_append, List.append_nil]
  simp only [parseLoop]
  rw [hinl]
  simp

/-- C1 counterexample: when the subprocess exits non-zero, the exception is
raised inside `__enter__`, Python never calls `__exit__`, and the
invocation's temporary file is still on disk after the scope ends — the
claim that no temporary file remains on every exit path is false. -/
theorem runTool_leak_on_nonzero_exit :
    withRunTool ["tool"] [{ key := "input", name := "tmpfile0", content := "data" }]
        (fun _ => { returncode := 1, stdout := "", stderr := "fail" }) []
        (fun _ => Except.ok 0)
      = (.error (.toolInvocation "tool" "fail"), ["tmpfile0"]) := by
  decide

/-- C1 amended: after a `RunTool` scope in which the subprocess ran and
exited zero, none of the temporary files created for the invocation remain
on disk, regardless of whether the caller's use of the results raised
afterwards; the scope's body receives the file handles and stdout. -/
theorem runTool_cleanup_after_successful_run {α : Type} (pattern : List String)
    (temps : List TempSpec) (proc : List String → ProcResult) (disk : List String)
    (body : ToolResults → Except PyErr α) (cmdline : List String)
    (hfmt : formatArgs (temps.map fun t => (t.key, t.name)) pattern = some cmdline)
    (hrc : (proc cmdline).returncode = 0)
    (hfresh : ∀ t ∈ temps, t.name ∉ disk) :
    (withRunTool pattern temps proc disk body).2 = disk
      ∧ (withRunTool pattern temps proc disk body).1
        = body { files := temps, stdout := (proc cmdline).stdout } := by
  rw [withRunTool]
  rw [runToolEnter_ok pattern temps proc cmdline hfmt hrc]
  dsimp only
  refine ⟨?_, rfl⟩
  rw [List.filter_append]
  have h1 : disk.filter (fun n => !(temps.map fun t => t.name).contains n) = disk := by
    rw [List.filter_eq_self]
    intro n hn
    have hnm : n ∉ temps.map fun t => t.name := by
      intro hmem
      obtain ⟨t, htm, htn⟩ := List.mem_map.mp hmem
      exact hfresh t htm (htn ▸ hn)
    simp [List.contains, hnm]
  have h2 : (temps.map fun t => t.name).filter
      (fun n => !(temps.map fun t => t.name).contains n) = [] := by
    rw [List.filter_eq_nil_iff]
    intro n hn
    simp [List.contains, hn]
  rw [h1, h2, List.append_nil]

/-- C2: `RunTool.__enter__` raises the tool-invocation error carrying the
invoked program's name (`cmdline[0]`) and the tool's decoded stderr if and
only if the tool's exit status is non-zero; on exit status zero it raises
nothing and returns the temporary-file handles plus the captured stdout
under the reserved key. -/
theorem runTool_error_iff_nonzero (pattern : List String) (temps : List TempSpec)
    (proc : List String → ProcResult) (c0 : String) (rest : List String)
    (hfmt : formatArgs (temps.map fun t => (t.key, t.name)) pattern = some (c0 :: rest)) :
    ((runToolEnter pattern temps proc).1
        = .error (.toolInvocation c0 (proc (c0 :: rest)).stderr)
      ↔ (proc (c0 :: rest)).returncode ≠ 0)
    ∧ ((proc (c0 :: rest)).returncode = 0 →
        (runToolEnter pattern temps proc).1
          = .ok { files := temps, stdout := (proc (c0 :: rest)).stdout }) := by
  by_cases hrc : (proc (c0 :: rest)).returncode = 0
  · rw [runToolEnter_ok pattern temps proc (c0 :: rest) hfmt hrc]
    constructor
    · constructor
      · intro h
        exact absurd h (by simp)
      · intro h
        exact absurd hrc h
    · intro _
      rfl
  · rw [runToolEnter_err pattern temps proc c0 rest hfmt hrc]
    constructor
    · constructor
      · intro _
        exact hrc
      · intro _
        rfl
    · intro h
      exact absurd h hrc

/-- C3: for every module whose generated native IR fails verification,
`Target.compile` dumps the broken IR — with the empty-string target, hence
to a fresh temporary file, not gated by any dump switch — and raises the
verification error; it never returns a value. -/
theorem compile_verification_failure (env : DumpEnv) (inp : CompileInputs)
    (h : inp.verifyOk = false) :
    (compile env inp).outcome = .backendVerificationError
      ∧ ({ kind := "LLVM IR (broken)", path := DumpPath.freshTemp ".ll",
           content := inp.llmodText } : DumpRec) ∈ (compile env inp).dumps
      ∧ ∀ m, (compile env inp).outcome ≠ .ok m := by
  rw [compile]
  rw [h]
  refine ⟨rfl, ?_, ?_⟩
  · simp [pyDump]
  · intro m
    simp

/-- C8 counterexample: for the empty name list the single `c++filt`
invocation (exiting cleanly with empty stdout) still yields
`"".rstrip().split("\n") == [""]`: `demangle` returns a one-element
sequence for a zero-element input, so the same-length-as-input claim is
false at the empty list. -/
theorem demangle_empty_names_length_mismatch :
    (demangle "or1k-linux"
        (fun _ => { returncode := 0, stdout := "", stderr := "" }) []).1
      = .ok [""]
      ∧ ([""] : List String).length ≠ ([] : List String).length := by
  exact ⟨by decide, by decide⟩

/-- C8 amended: for every nonempty list of input names, `Target.demangle`
invokes the external demangler once with the whole batch and splits its
stdout into lines; when the demangler prints one line per input name (its
documented contract), the result has the same length as the input and is
in input order.  (For the empty list the split of the rstripped stdout is
the one-element `[""]`, see the counterexample.) -/
theorem demangle_batch (triple : String) (proc : List String → ProcResult)
    (names : List String) (f : String → String)
    (hne : names ≠ [])
    (ht : braceFree triple) (hn : ∀ n ∈ names, braceFree n)
    (hout : ∀ cmd, (proc cmd).returncode = 0 ∧
        pySplitLines (pyRstrip (proc cmd).stdout) = names.map f) :
    (demangle triple proc names).1 = .ok (names.map f)
      ∧ (names.map f).length = names.length
      ∧ (demangle triple proc names).2 = [(triple ++ "-c++filt") :: names] := by
  have hall : ∀ s ∈ (triple ++ "-c++filt") :: names, braceFree s := by
    intro s hs
    rcases List.mem_cons.mp hs with rfl | hs
    · exact braceFree_append triple "-c++filt" ht (by decide)
    · exact hn s hs
  have hfmt : formatArgs (([] : List TempSpec).map fun t => (t.key, t.name))
      ((triple ++ "-c++filt") :: names) = some ((triple ++ "-c++filt") :: names) :=
    formatArgs_braceFree_list _ _ hall
  rw [demangle, runToolEnter_ok _ [] proc _ hfmt (hout _).1]
  dsimp only
  exact ⟨by rw [(hout _).2], by simp, rfl⟩

/-- C9 counterexample: the module-signature switch with the empty-string
value — which for every `_dump` switch means "dump to a fresh auto-named
temporary file" — produces no dump at all: the empty string is falsy, so
`compile` neither writes a file nor prints the signature. -/
theorem dump_sig_empty_no_dump :
    compile { dumpSig := some "", dumpIr := none, dumpUnoptLlvm := none, dumpLlvm := none }
        { moduleText := "m", artiqIrText := "ir", llmodText := "ll", verifyOk := true,
          parsedText := "p", optimizedText := "o" }
      = { outcome := .ok "o", dumps := [], stderrLines := [] } := by
  decide

/-- C9 amended: for the `_dump`-based switches, an absent value causes no
dump and the content producer is never forced, an empty value causes a dump
to a fresh auto-named temporary file, and a non-empty value causes a dump
to the given path with the stage's fixed suffix appended; the
module-signature switch, however, never contributes a dump file — the dump
set of `compile` is independent of it — and instead prints the signature to
stderr exactly when its value is truthy, so its empty value dumps
nothing. -/
theorem dump_switch_behavior (kind suffix : String) (content : Unit → String)
    (t : String) (ht : t ≠ "") (env : DumpEnv) (inp : CompileInputs) :
    pyDump none kind suffix content = (none, false)
      ∧ pyDump (some "") kind suffix content
          = (some { kind := kind, path := .freshTemp suffix, content := content () }, true)
      ∧ pyDump (some t) kind suffix content
          = (some { kind := kind, path := .explicit (t ++ suffix), content := content () }, true)
      ∧ (compile env inp).stderrLines
          = (if pyTruthy env.dumpSig then ["====== MODULE_SIGNATURE DUMP ======", inp.moduleText]
             else [])
      ∧ (compile env inp).dumps = (compile { env with dumpSig := none } inp).dumps
      ∧ pyTruthy (some "") = false := by
  refine ⟨rfl, by simp [pyDump], by simp [pyDump, ht], ?_, ?_, rfl⟩
  · by_cases hv : inp.verifyOk <;> simp [compile, hv]
  · by_cases hv : inp.verifyOk <;> simp [compile, hv]

/-! ## Witnesses -/

/-- Witness for C1 amended: a concrete successful invocation with a
failing body still ends with only the pre-existing disk contents. -/
theorem runTool_cleanup_witness :
    (withRunTool ["tool", "{input}"]
        [{ key := "input", name := "tmpfile0", content := "data" }]
        (fun _ => { returncode := 0, stdout := "out", stderr := "" }) ["existing"]
        (fun _ => (Except.error PyErr.valueError : Except PyErr Nat))).2
      = ["existing"] :=
  (runTool_cleanup_after_successful_run ["tool", "{input}"]
    [{ key := "input", name := "tmpfile0", content := "data" }]
    (fun _ => { returncode := 0, stdout := "out", stderr := "" }) ["existing"]
    (fun _ => (Except.error PyErr.valueError : Except PyErr Nat))
    ["tool", "tmpfile0"] (by decide) (by decide) (by decide)).1

/-- Witness for C2: a concrete tool failing with exit status 1 raises the
invocation error carrying its name and stderr. -/
theorem runTool_error_iff_witness :
    (runToolEnter ["tool"] []
        (fun _ => { returncode := 1, stdout := "", stderr := "boom" })).1
      = .error (.toolInvocation "tool" "boom") :=
  ((runTool_error_iff_nonzero ["tool"] []
    (fun _ => { returncode := 1, stdout := "", stderr := "boom" }) "tool" []
    (by decide)).1).mpr (by decide)

/-- Witness for C3: a concrete failing verification yields the error
outcome. -/
theorem compile_verification_failure_witness :
    (compile { dumpSig := none, dumpIr := none, dumpUnoptLlvm := none, dumpLlvm := none }
        { moduleText := "m", artiqIrText := "ir", llmodText := "broken", verifyOk := false,
          parsedText := "p", optimizedText := "o" }).outcome
      = .backendVerificationError :=
  (compile_verification_failure
    { dumpSig := none, dumpIr := none, dumpUnoptLlvm := none, dumpLlvm := none }
    { moduleText := "m", artiqIrText := "ir", llmodText := "broken", verifyOk := false,
      parsedText := "p", optimizedText := "o" } rfl).1

/-- Witness for C4: the spec's end-to-end scenario. -/
theorem symbolize_wellformed_roots_witness :
    (symbolize "or1k-linux"
        (fun _ => { returncode := 0, stdout := "0x1003\nfoo\nmain.c:10\n", stderr := "" })
        "LIB" "tmp0" [4100]).1
      = .ok [{ filename := "main.c", line := 10, column := -1,
               function := "foo", address := 4100 }] := by
  have hsplit : pySplitLines (pyRstrip "0x1003\nfoo\nmain.c:10\n")
      = ([{ addr := 4100, fn := "foo", file := "main.c", lineStr := "10" }] :
          List RootRec).flatMap rootLines := by decide
  have h := symbolize_wellformed_roots "or1k-linux"
    (fun _ => { returncode := 0, stdout := "0x1003\nfoo\nmain.c:10\n", stderr := "" })
    "LIB" "tmp0" [4100]
    [{ addr := 4100, fn := "foo", file := "main.c", lineStr := "10" }]
    (by decide) (by decide) (by decide) (by decide)
    (fun cmd => ⟨rfl, hsplit⟩)
  exact h.1.trans (by decide)

/-- Witness for C5: the resolver receives "0x1003" for address 0x1004 and
the reported entry address is 0x1004. -/
theorem symbolize_address_roundtrip_witness :
    (symbolize "or1k-linux"
        (fun _ => { returncode := 0, stdout := "0x1003\nfoo\nmain.c:10\n", stderr := "" })
        "LIB" "tmp0" [4100]).2
        = [["or1k-linux-addr2line", "--addresses", "--functions", "--inlines", "--demangle",
            "--exe=tmp0", "0x1003"]]
      ∧ (symbolize "or1k-linux"
          (fun _ => { returncode := 0, stdout := "0x1003\nfoo\nmain.c:10\n", stderr := "" })
          "LIB" "tmp0" [4100]).1
        = .ok [{ filename := "main.c", line := 10, column := -1,
                 function := "foo", address := 4100 }] := by
  have hsplit : pySplitLines (pyRstrip "0x1003\nfoo\nmain.c:10\n")
      = rootLines { addr := 4100, fn := "foo", file := "main.c", lineStr := "10" } := by decide
  have h := symbolize_address_roundtrip "or1k-linux"
    (fun _ => { returncode := 0, stdout := "0x1003\nfoo\nmain.c:10\n", stderr := "" })
    "LIB" "tmp0" 4100 (by decide) "foo" "main.c" "10" (by decide) (by decide) (by decide)
    (by decide) (fun cmd => ⟨rfl, hsplit⟩)
  exact ⟨h.1.trans (by decide), h.2.trans (by decide)⟩

/-- Witness for C6: a concrete successful run whose single entry is
checked against the sentinel filter. -/
theorem symbolize_sentinel_frames_dropped_witness :
    ({ filename := "main.c", line := 10, column := -1, function := "foo",
       address := 4100 } : BacktraceEntry).filename ≠ "??" := by
  have h := symbolize_sentinel_frames_dropped.1 "or1k-linux"
    (fun _ => { returncode := 0, stdout := "0x1003\nfoo\nmain.c:10\n", stderr := "" })
    "LIB" "tmp0" [4100]
    [{ filename := "main.c", line := 10, column := -1, function := "foo", address := 4100 }]
    (by decide)
  exact (h _ (by simp)).1

/-- Witness for C7: resolver output whose first record is inlined makes
`symbolize` fail with the index error. -/
theorem symbolize_inlined_first_witness :
    (symbolize "or1k-linux"
        (fun _ => { returncode := 0, stdout := "foo\nmain.c:10\n", stderr := "" })
        "LIB" "tmp0" [4100]).1
      = .error .indexError := by
  have hsplit : pySplitLines (pyRstrip "foo\nmain.c:10\n")
      = ([] : List RootRec).flatMap rootLines ++ "foo" :: ["main.c:10"] := by decide
  exact symbolize_inlined_first_index_error "or1k-linux"
    (fun _ => { returncode := 0, stdout := "foo\nmain.c:10\n", stderr := "" })
    "LIB" "tmp0" [4100] [] "foo" ["main.c:10"]
    (by decide) (by decide) (by intro r hr; cases hr) (by decide)
    (fun cmd => ⟨rfl, hsplit⟩)

/-- Witness for C8: one mangled name demangled through a conforming tool. -/
theorem demangle_batch_witness :
    (demangle "or1k-linux"
        (fun _ => { returncode := 0, stdout := "f()\n", stderr := "" }) ["_Z1fv"]).1
      = .ok ["f()"] := by
  have hsplit : pySplitLines (pyRstrip "f()\n")
      = List.map (fun _ => "f()") ["_Z1fv"] := by decide
  have h := demangle_batch "or1k-linux"
    (fun _ => { returncode := 0, stdout := "f()\n", stderr := "" }) ["_Z1fv"]
    (fun _ => "f()") (by decide) (by decide) (by decide) (fun cmd => ⟨rfl, hsplit⟩)
  exact h.1.trans (by decide)

/-- Witness for C9 amended: a non-empty switch value dumps to the explicit
path with the stage suffix appended. -/
theorem dump_switch_behavior_witness :
    pyDump (some "path") "ASM" ".s" (fun _ => "text")
      = (some { kind := "ASM", path := .explicit "path.s", content := "text" }, true) := by
  have h := dump_switch_behavior "ASM" ".s" (fun _ => "text") "path" (by decide)
    { dumpSig := none, dumpIr := none, dumpUnoptLlvm := none, dumpLlvm := none }
    { moduleText := "m", artiqIrText := "ir", llmodText := "ll", verifyOk := true,
      parsedText := "p", optimizedText := "o" }
  exact h.2.2.1.trans (by decide)

end ArtiqTargets
